import Mathlib

/-!
Shallow embedding of the CPU core of the `gameboy` repository
(`src/cpu.rs` and `src/cpu/registers.rs`).

Machine integers are modelled as `Nat` with explicit reductions modulo
`2^8` / `2^16` where the Rust code wraps.  The modules `instruction.rs`
and `memory_bus.rs` are declared by `cpu.rs` but are not present under
`src/`; the parts of them that the development needs are modelled from
the spec and marked as such in their doc comments.
-/

/-- The flags register `f` of `registers.rs`: four booleans
(bit 7 zero, bit 6 subtract, bit 5 half carry, bit 4 carry). -/
structure FlagsRegister where
  zero : Bool
  subtract : Bool
  half_carry : Bool
  carry : Bool
deriving DecidableEq, Repr

def ZERO_FLAG_BYTE_POSITION : Nat := 7

def SUBTRACT_FLAG_BYTE_POSITION : Nat := 6

def HALF_CARRY_FLAG_BYTE_POSITION : Nat := 5

def CARRY_FLAG_BYTE_POSITION : Nat := 4

/-- `impl From<FlagsRegister> for u8` in `registers.rs`: pack the four
booleans into a byte, `(flag.zero as u8) << 7 | ... | (flag.carry as u8) << 4`. -/
def FlagsRegister.toByte (flag : FlagsRegister) : Nat :=
  (cond flag.zero 1 0) <<< ZERO_FLAG_BYTE_POSITION |||
  (cond flag.subtract 1 0) <<< SUBTRACT_FLAG_BYTE_POSITION |||
  (cond flag.half_carry 1 0) <<< HALF_CARRY_FLAG_BYTE_POSITION |||
  (cond flag.carry 1 0) <<< CARRY_FLAG_BYTE_POSITION

/-- `impl From<u8> for FlagsRegister` in `registers.rs`: read one bit per
flag, `((byte >> POSITION) & 0b1) != 0`. -/
def FlagsRegister.ofByte (byte : Nat) : FlagsRegister :=
  { zero := ((byte >>> ZERO_FLAG_BYTE_POSITION) &&& 1) != 0
  , subtract := ((byte >>> SUBTRACT_FLAG_BYTE_POSITION) &&& 1) != 0
  , half_carry := ((byte >>> HALF_CARRY_FLAG_BYTE_POSITION) &&& 1) != 0
  , carry := ((byte >>> CARRY_FLAG_BYTE_POSITION) &&& 1) != 0 }

/-- The register file of `registers.rs`: seven 8-bit registers
(as `Nat`, values kept below 256 by the operations) and the flags register. -/
structure Registers where
  a : Nat
  b : Nat
  c : Nat
  d : Nat
  e : Nat
  f : FlagsRegister
  h : Nat
  l : Nat
deriving Repr

/-- `Registers::get_af`: `(self.a as u16) << 8 | self.f as u16`, where the
flags register contributes its packed byte. -/
def Registers.get_af (r : Registers) : Nat :=
  r.a <<< 8 ||| r.f.toByte

/-- `Registers::set_af`, exactly as the source writes it:
`self.a = ((value & 0xFF00) >> 8) as u8; self.c = (value & 0xFF) as u8;`.
Note that the second assignment stores into register `c`, not `f`. -/
def Registers.set_af (r : Registers) (value : Nat) : Registers :=
  { r with a := (value &&& 0xFF00) >>> 8, c := value &&& 0xFF }

/-- `Registers::get_bc`: `(self.b as u16) << 8 | self.c as u16`. -/
def Registers.get_bc (r : Registers) : Nat :=
  r.b <<< 8 ||| r.c

/-- `Registers::set_bc`. -/
def Registers.set_bc (r : Registers) (value : Nat) : Registers :=
  { r with b := (value &&& 0xFF00) >>> 8, c := value &&& 0xFF }

/-- `Registers::get_de`: `(self.d as u16) << 8 | self.e as u16`. -/
def Registers.get_de (r : Registers) : Nat :=
  r.d <<< 8 ||| r.e

/-- `Registers::set_de`. -/
def Registers.set_de (r : Registers) (value : Nat) : Registers :=
  { r with d := (value &&& 0xFF00) >>> 8, e := value &&& 0xFF }

/-- `Registers::get_hl`: `(self.h as u16) << 8 | self.l as u16`. -/
def Registers.get_hl (r : Registers) : Nat :=
  r.h <<< 8 ||| r.l

/-- `Registers::set_hl`. -/
def Registers.set_hl (r : Registers) (value : Nat) : Registers :=
  { r with h := (value &&& 0xFF00) >>> 8, l := value &&& 0xFF }

/-- The operand of `Instruction::ADD`.  The enum itself lives in
`instruction.rs`, which is absent from `src/`; its variants are exactly the
ones matched exhaustively in `CPU::execute` of `cpu.rs`. -/
inductive ArithmeticTarget where
  | A | B | C | D | E | H | L
deriving DecidableEq, Repr

/-- The operand of `Instruction::JP`, with variants exactly as matched
exhaustively in `CPU::execute` of `cpu.rs`. -/
inductive JumpTest where
  | NotZero | Zero | NotCarry | Carry | Always
deriving DecidableEq, Repr

/-- Decoded instructions, with variants exactly as matched exhaustively in
`CPU::execute` of `cpu.rs`. -/
inductive Instruction where
  | ADD (target : ArithmeticTarget)
  | JP (test : JumpTest)
deriving DecidableEq, Repr

/-- Modelled from the spec: `memory_bus.rs` is not under `src/`.  The memory
device holds some byte content at every 16-bit address. -/
structure MemoryBus where
  data : Nat → Nat

/-- Modelled from the spec: the memory device contract is
`read_byte(address: 16-bit) -> 8-bit value`, a synchronous, always-succeeding
read of one byte at an arbitrary 16-bit address.  The reductions modulo
`65536` and `256` record that the address and the returned value are a `u16`
and a `u8`. -/
def MemoryBus.read_byte (bus : MemoryBus) (address : Nat) : Nat :=
  bus.data (address % 65536) % 256

/-- The CPU state of `cpu.rs`: register file, 16-bit program counter, and
the memory bus (only read in this core). -/
structure CPU where
  registers : Registers
  pc : Nat
  bus : MemoryBus

/-- The abnormal terminations of the core, both process-aborting panics in
the Rust source: `todo!()` in the unimplemented arms of `CPU::execute`, and
the `panic!("Unkown instruction found for: ...")` in `CPU::step` whose
message carries the opcode byte and the prefix flag. -/
inductive Abort where
  | unimplemented
  | unknownOpcode (byte : Nat) (prefixed : Bool)
deriving DecidableEq, Repr

/-- `u8::overflowing_add`: the sum modulo 256 and whether the unsigned sum
exceeded 255. -/
def u8_overflowing_add (x y : Nat) : Nat × Bool :=
  ((x + y) % 256, decide (255 < x + y))

/-- `u16::wrapping_add`: the sum modulo 65536. -/
def u16_wrapping_add (x y : Nat) : Nat :=
  (x + y) % 65536

/-- `CPU::add`: performs `self.registers.a.overflowing_add(value)`, writes
the four flags (half carry from the low nibbles of the pre-add `a` and
`value`), and returns the new value.  Register `a` itself is written by the
caller, `CPU::execute`. -/
def CPU.add (cpu : CPU) (value : Nat) : CPU × Nat :=
  let p := u8_overflowing_add cpu.registers.a value
  let new_value := p.1
  let did_overflow := p.2
  let f : FlagsRegister :=
    { zero := new_value == 0
    , subtract := false
    , carry := did_overflow
    , half_carry := decide (0xF < (cpu.registers.a &&& 0xF) + (value &&& 0xF)) }
  ({ cpu with registers := { cpu.registers with f := f } }, new_value)

/-- `CPU::jump`: when the condition holds, build the target address from the
two operand bytes, `pc + 2` as most significant and `pc + 1` as least
significant; otherwise `self.pc.wrapping_add(3)`. -/
def CPU.jump (cpu : CPU) (should_jump : Bool) : Nat :=
  if should_jump then
    let least_significant_byte := cpu.bus.read_byte (cpu.pc + 1)
    let most_significant_byte := cpu.bus.read_byte (cpu.pc + 2)
    (most_significant_byte <<< 8) ||| least_significant_byte
  else
    u16_wrapping_add cpu.pc 3

/-- The `jump_condition` computed in the `Instruction::JP` arm of
`CPU::execute`. -/
def CPU.jump_condition (cpu : CPU) (test : JumpTest) : Bool :=
  match test with
  | .NotZero => !cpu.registers.f.zero
  | .NotCarry => !cpu.registers.f.carry
  | .Zero => cpu.registers.f.zero
  | .Carry => cpu.registers.f.carry
  | .Always => true

/-- `CPU::execute`: dispatch on the decoded instruction.  The implemented
arms return the mutated CPU together with the next program counter; the
`todo!()` arms abort. -/
def CPU.execute (cpu : CPU) (instruction : Instruction) : Except Abort (CPU × Nat) :=
  match instruction with
  | .ADD target =>
    match target with
    | .A => .error .unimplemented
    | .B => .error .unimplemented
    | .C =>
      let value := cpu.registers.c
      let r := cpu.add value
      let cpu := { r.1 with registers := { r.1.registers with a := r.2 } }
      .ok (cpu, u16_wrapping_add cpu.pc 1)
    | .D => .error .unimplemented
    | .E => .error .unimplemented
    | .H => .error .unimplemented
    | .L => .error .unimplemented
  | .JP test =>
    .ok (cpu, cpu.jump (cpu.jump_condition test))

/-- The tail of `CPU::step` after the instruction byte and prefix flag are
fetched: decode via `Instruction::from_byte`, execute on success and store
the returned next program counter, abort with the offending byte and the
prefix flag on decode failure. -/
def CPU.stepDispatch (cpu : CPU) (from_byte : Nat → Bool → Option Instruction)
    (instruction_byte : Nat) (prefixed : Bool) : Except Abort CPU :=
  match from_byte instruction_byte prefixed with
  | some instruction =>
    match cpu.execute instruction with
    | .ok r => .ok { r.1 with pc := r.2 }
    | .error abort => .error abort
  | none => .error (.unknownOpcode instruction_byte prefixed)

/-- `CPU::step`: read the byte at the program counter; when it is the prefix
marker `0xCB`, read the byte at `pc + 1` instead and decode it against the
prefixed table, otherwise decode the original byte against the base table.
`Instruction::from_byte` lives in `instruction.rs`, which is absent from
`src/`; modelled from the spec as an arbitrary pure lookup passed as a
parameter (two 256-entry tables keyed by the byte and the prefix flag). -/
def CPU.step (cpu : CPU) (from_byte : Nat → Bool → Option Instruction) : Except Abort CPU :=
  let instruction_byte := cpu.bus.read_byte cpu.pc
  let prefixed := instruction_byte == 0xCB
  let instruction_byte :=
    if prefixed then cpu.bus.read_byte (cpu.pc + 1) else instruction_byte
  cpu.stepDispatch from_byte instruction_byte prefixed

/-- Rust addition on `u16` as compiled with debug assertions: the unchecked
`+` of `self.pc + 1` (prefixed fetch in `CPU::step`) and `self.pc + 1` /
`self.pc + 2` (operand reads in `CPU::jump`) panics when the sum does not
fit in 16 bits, modelled as `none`; without debug assertions it wraps. -/
def u16_checked_add (x y : Nat) : Option Nat :=
  if x + y < 65536 then some (x + y) else none

/-- The fetch phase of `CPU::step` under debug-assertion arithmetic: the
prefixed fetch address is `self.pc + 1` with the unchecked `+`, so the fetch
aborts (`none`) when that addition overflows 16 bits. -/
def CPU.fetchChecked (cpu : CPU) : Option (Nat × Bool) :=
  let instruction_byte := cpu.bus.read_byte cpu.pc
  if instruction_byte == 0xCB then
    match u16_checked_add cpu.pc 1 with
    | some address => some (cpu.bus.read_byte address, true)
    | none => none
  else
    some (instruction_byte, false)

/-- `CPU::jump` under debug-assertion arithmetic: the operand addresses are
`self.pc + 1` and `self.pc + 2` with the unchecked `+`, so a taken jump
aborts (`none`) when either addition overflows 16 bits. -/
def CPU.jumpChecked (cpu : CPU) (should_jump : Bool) : Option Nat :=
  if should_jump then
    match u16_checked_add cpu.pc 1, u16_checked_add cpu.pc 2 with
    | some a1, some a2 =>
      some ((cpu.bus.read_byte a2) <<< 8 ||| cpu.bus.read_byte a1)
    | _, _ => none
  else
    some (u16_wrapping_add cpu.pc 3)

/-- Registers with every 8-bit register zero and every flag clear. -/
def zeroRegisters : Registers :=
  ⟨0, 0, 0, 0, 0, ⟨false, false, false, false⟩, 0, 0⟩

/-- A memory bus whose every cell holds the same byte. -/
def constBus (byte : Nat) : MemoryBus :=
  ⟨fun _ => byte⟩

/-- A CPU with zeroed registers at a given program counter over a given bus. -/
def cpuAt (pc : Nat) (bus : MemoryBus) : CPU :=
  ⟨zeroRegisters, pc, bus⟩

/-- A decode table with no defined instruction anywhere. -/
def emptyTable : Nat → Bool → Option Instruction :=
  fun _ _ => none

/-- A decode table defining only the base-table opcode `0x80` as `ADD C`. -/
def addTable : Nat → Bool → Option Instruction :=
  fun byte prefixed => if prefixed = false ∧ byte = 0x80 then some (.ADD .C) else none

theorem nat_beq_eq_decide (a b : Nat) : (a == b) = decide (a = b) := by
  by_cases h : a = b <;> simp [h]

theorem nat_and_fifteen (n : Nat) : n &&& 15 = n % 16 := by
  simpa using Nat.and_pow_two_sub_one_eq_mod n 4

theorem flags_ofByte_toByte (f : FlagsRegister) : FlagsRegister.ofByte f.toByte = f := by
  obtain ⟨z, s, hc, c⟩ := f
  cases z <;> cases s <;> cases hc <;> cases c <;> decide

/-- Claim C1: for every pair name and 16-bit value the pair setter followed by
the pair getter should return the value, touching only the two named
registers.  This fails for the pair `af`: `Registers::set_af` stores the low
byte into register `c` (contradicting its own doc comment, which says
register `f` receives the 8 right-most bits), so the `af` round trip loses
the low byte and register `c`, outside the pair, is clobbered.  Evaluation at
the failing input `set_af` of `0x1234` on zeroed registers; at the same
value the other three pairs round-trip as claimed. -/
theorem set_af_clobbers_c_and_breaks_roundtrip :
    (zeroRegisters.set_af 0x1234).get_af = 0x1200 ∧
    (0x1200 : Nat) ≠ 0x1234 ∧
    (zeroRegisters.set_af 0x1234).c = 0x34 ∧
    zeroRegisters.c = 0 ∧
    (zeroRegisters.set_af 0x1234).f = zeroRegisters.f ∧
    (zeroRegisters.set_bc 0x1234).get_bc = 0x1234 ∧
    (zeroRegisters.set_de 0x1234).get_de = 0x1234 ∧
    (zeroRegisters.set_hl 0x1234).get_hl = 0x1234 := by
  refine ⟨by decide, by decide, by decide, by decide, rfl, by decide, by decide, by decide⟩

/-- Claim C2: on an opcode byte with no decoding, `CPU::step` should return a
typed, catchable outcome carrying the byte and the prefix flag.  The source
instead calls `panic!`, terminating the process; the panic (modelled as the
`Abort.unknownOpcode` error) does carry the byte value and the prefix flag.
Evaluation at two failing inputs: an undefined base-table byte `0x00`, and
the prefix marker followed by an undefined secondary-table byte `0xCB`. -/
theorem step_panics_on_unknown_opcode :
    (cpuAt 0 (constBus 0x00)).step emptyTable = .error (.unknownOpcode 0x00 false) ∧
    (cpuAt 0 (constBus 0xCB)).step emptyTable = .error (.unknownOpcode 0xCB true) :=
  ⟨rfl, rfl⟩

/-- Claim C3: for every 8-bit value of register `a` and of the source
register `c`, executing `ADD C` stores `(a + c) mod 256` into `a`, sets carry
iff the unsigned sum exceeds 255, sets zero iff the stored result is 0,
clears subtract, sets half carry iff the low nibbles of the pre-add `a` and
of the value sum above `0xF`, and advances the program counter by 1
(wrapping modulo 65536). -/
theorem execute_add_c_spec (cpu : CPU)
    (_ha : cpu.registers.a < 256) (_hc : cpu.registers.c < 256) :
    cpu.execute (.ADD .C) =
      .ok ({ cpu with registers :=
        { cpu.registers with
            a := (cpu.registers.a + cpu.registers.c) % 256
          , f := { zero := decide ((cpu.registers.a + cpu.registers.c) % 256 = 0)
                 , subtract := false
                 , half_carry := decide (0xF < cpu.registers.a % 16 + cpu.registers.c % 16)
                 , carry := decide (255 < cpu.registers.a + cpu.registers.c) } } },
        (cpu.pc + 1) % 65536) := by
  simp [CPU.execute, CPU.add, u8_overflowing_add, u16_wrapping_add,
    nat_and_fifteen, nat_beq_eq_decide]

/-- CPU poised to run the spec example `a = 0x0F`, `value = 0x01`. -/
def cpuAdd1 : CPU :=
  ⟨{ zeroRegisters with a := 0x0F, c := 0x01 }, 0x100, constBus 0⟩

/-- CPU poised to run the spec example `a = 0xFF`, `value = 0x01`. -/
def cpuAdd2 : CPU :=
  ⟨{ zeroRegisters with a := 0xFF, c := 0x01 }, 0x100, constBus 0⟩

/-- Witness for claim C3: the two concrete examples of the claim.
`a = 0x0F, value = 0x01` gives result `0x10` with half carry set, carry and
zero clear; `a = 0xFF, value = 0x01` gives result `0x00` with carry and zero
set. -/
theorem execute_add_c_spec_witness :
    cpuAdd1.execute (.ADD .C) =
      .ok ({ cpuAdd1 with registers :=
        { cpuAdd1.registers with a := 0x10, f := ⟨false, false, true, false⟩ } },
        0x101) ∧
    cpuAdd2.execute (.ADD .C) =
      .ok ({ cpuAdd2 with registers :=
        { cpuAdd2.registers with a := 0x00, f := ⟨true, false, true, true⟩ } },
        0x101) := by
  constructor
  · have h := execute_add_c_spec cpuAdd1 (by decide) (by decide)
    rw [h]; rfl
  · have h := execute_add_c_spec cpuAdd2 (by decide) (by decide)
    rw [h]; rfl

/-- Claim C4: for every flag state, program counter and memory contents,
executing a conditional jump whose condition evaluates true sets the next
program counter to `(byte at pc+2) <<< 8 ||| (byte at pc+1)` (little endian,
low byte first); when the condition evaluates false the next program counter
is `pc + 3` (wrapping modulo 65536).  The register file is untouched. -/
theorem execute_jp_spec (cpu : CPU) (test : JumpTest) :
    (cpu.jump_condition test = true →
      cpu.execute (.JP test) =
        .ok (cpu, (cpu.bus.read_byte (cpu.pc + 2)) <<< 8 ||| cpu.bus.read_byte (cpu.pc + 1))) ∧
    (cpu.jump_condition test = false →
      cpu.execute (.JP test) = .ok (cpu, (cpu.pc + 3) % 65536)) := by
  constructor <;> intro h <;> simp [CPU.execute, CPU.jump, h, u16_wrapping_add]

/-- Memory holding the operand bytes of the spec example: `0x34` at
`P + 1` and `0x12` at `P + 2` for `P = 0x100`. -/
def busJ : MemoryBus :=
  ⟨fun address => if address = 0x101 then 0x34 else if address = 0x102 then 0x12 else 0⟩

/-- CPU at `P = 0x100` over `busJ`, with every flag clear. -/
def cpuJ : CPU :=
  ⟨zeroRegisters, 0x100, busJ⟩

/-- Witness for claim C4: the concrete example of the claim.  With operand
bytes `0x34` at `P + 1` and `0x12` at `P + 2`, a satisfied condition
(`Always`) yields next program counter `0x1234`; an unsatisfied condition
(`Zero` with the zero flag clear) yields `P + 3 = 0x103`. -/
theorem execute_jp_spec_witness :
    cpuJ.execute (.JP .Always) = .ok (cpuJ, 0x1234) ∧
    cpuJ.execute (.JP .Zero) = .ok (cpuJ, 0x103) := by
  constructor
  · have h := (execute_jp_spec cpuJ .Always).1 rfl
    rw [h]; rfl
  · have h := (execute_jp_spec cpuJ .Zero).2 rfl
    rw [h]; rfl

set_option maxRecDepth 2048 in
/-- Claim C5: for every 8-bit value `x`, converting back and forth
reproduces the flags of `byte_to_flags(x)`; and the round trip through the
flag booleans keeps only the high nibble (the low-nibble bits of `x` are
ignored, not preserved). -/
theorem flags_byte_roundtrip :
    (∀ x : Nat, FlagsRegister.ofByte (FlagsRegister.ofByte x).toByte = FlagsRegister.ofByte x) ∧
    (∀ x : Nat, x < 256 → (FlagsRegister.ofByte x).toByte = x &&& 0xF0) := by
  constructor
  · intro x
    exact flags_ofByte_toByte (FlagsRegister.ofByte x)
  · decide

/-- Witness for claim C5 at `x = 0xAB`: the round trip reproduces the flags,
and packing the unpacked flags keeps only the high nibble, `0xA0`. -/
theorem flags_byte_roundtrip_witness :
    FlagsRegister.ofByte (FlagsRegister.ofByte 0xAB).toByte = FlagsRegister.ofByte 0xAB ∧
    (FlagsRegister.ofByte 0xAB).toByte = 0xAB &&& 0xF0 :=
  ⟨flags_byte_roundtrip.1 0xAB, flags_byte_roundtrip.2 0xAB (by decide)⟩

set_option maxRecDepth 2048 in
/-- Claim C6: the packed byte has zero in bit 7, subtract in bit 6, half
carry in bit 5, carry in bit 4, and a zero low nibble; and unpacking a byte
reads exactly those four bit positions, ignoring the low nibble. -/
theorem flags_byte_layout :
    (∀ f : FlagsRegister,
      f.toByte.testBit 7 = f.zero ∧ f.toByte.testBit 6 = f.subtract ∧
      f.toByte.testBit 5 = f.half_carry ∧ f.toByte.testBit 4 = f.carry ∧
      f.toByte % 16 = 0) ∧
    (∀ byte : Nat, byte < 256 →
      FlagsRegister.ofByte byte =
        ⟨byte.testBit 7, byte.testBit 6, byte.testBit 5, byte.testBit 4⟩) := by
  constructor
  · intro f
    obtain ⟨z, s, hc, c⟩ := f
    cases z <;> cases s <;> cases hc <;> cases c <;> decide
  · decide

/-- Flags with zero and half carry set, packing to `0xA0`. -/
def flagsZH : FlagsRegister := ⟨true, false, true, false⟩

/-- Witness for claim C6: the packed byte of `flagsZH` has bits 7 and 5 set
and a zero low nibble, and unpacking `0xB5` reads bits 7, 6, 5, 4. -/
theorem flags_byte_layout_witness :
    (flagsZH.toByte.testBit 7 = true ∧ flagsZH.toByte.testBit 6 = false ∧
      flagsZH.toByte.testBit 5 = true ∧ flagsZH.toByte.testBit 4 = false ∧
      flagsZH.toByte % 16 = 0) ∧
    FlagsRegister.ofByte 0xB5 = ⟨true, false, true, true⟩ :=
  ⟨flags_byte_layout.1 flagsZH, flags_byte_layout.2 0xB5 (by decide)⟩

/-- Claim C7: `CPU::step` reads the byte at the program counter; when it is
`0xCB` it reads the byte at `pc + 1` and hands that byte with the prefixed
flag `true` to the decode-and-execute tail, otherwise it hands the original
byte with the prefixed flag `false`.  Holds for every decode table. -/
theorem step_fetch_routing (cpu : CPU) (from_byte : Nat → Bool → Option Instruction) :
    (cpu.bus.read_byte cpu.pc = 0xCB →
      cpu.step from_byte =
        cpu.stepDispatch from_byte (cpu.bus.read_byte (cpu.pc + 1)) true) ∧
    (cpu.bus.read_byte cpu.pc ≠ 0xCB →
      cpu.step from_byte = cpu.stepDispatch from_byte (cpu.bus.read_byte cpu.pc) false) := by
  constructor <;> intro h <;> simp [CPU.step, nat_beq_eq_decide, h]

/-- CPU whose program counter sits on the prefix marker `0xCB`, with `0x80`
everywhere else in memory. -/
def cpuCB : CPU :=
  ⟨zeroRegisters, 0x200, ⟨fun address => if address = 0x200 then 0xCB else 0x80⟩⟩

/-- Witness for claim C7: with `0xCB` at the program counter, step decodes
the byte at `pc + 1` against the prefixed table; with `0x80` there, it
decodes `0x80` against the base table. -/
theorem step_fetch_routing_witness :
    cpuCB.step addTable =
      cpuCB.stepDispatch addTable (cpuCB.bus.read_byte (cpuCB.pc + 1)) true ∧
    (cpuAt 0 (constBus 0x80)).step addTable =
      (cpuAt 0 (constBus 0x80)).stepDispatch addTable
        ((cpuAt 0 (constBus 0x80)).bus.read_byte (cpuAt 0 (constBus 0x80)).pc) false :=
  ⟨(step_fetch_routing cpuCB addTable).1 (by decide),
   (step_fetch_routing (cpuAt 0 (constBus 0x80)) addTable).2 (by decide)⟩

/-- CPU at the top of the address space, with the prefix marker everywhere
in memory, so that the prefixed fetch at `pc + 1` is exercised. -/
def cpuTop : CPU :=
  ⟨zeroRegisters, 0xFFFF, constBus 0xCB⟩

/-- Claim C8: the address computations `pc + 1` (prefixed fetch in
`CPU::step`) and `pc + 1` / `pc + 2` (operand reads in `CPU::jump`) are
claimed to wrap modulo 65536 and never fail.  The source computes them with
the unchecked `+` on `u16` (unlike the deliberate `wrapping_add` used for
the sequential program-counter updates), which panics on overflow when
compiled with debug assertions.  Evaluation at the failing input
`pc = 0xFFFF`: under checked arithmetic the prefixed fetch and a taken jump
abort instead of wrapping, while `wrapping_add` wraps as claimed. -/
theorem unchecked_address_add_aborts :
    u16_checked_add 0xFFFF 1 = none ∧
    cpuTop.fetchChecked = none ∧
    cpuTop.jumpChecked true = none ∧
    u16_wrapping_add 0xFFFF 1 = 0 ∧
    u16_wrapping_add 0xFFFF 3 = 2 :=
  ⟨rfl, rfl, rfl, rfl, rfl⟩

/-- Claim C9: executing `ADD C` mutates only register `a`, the flags and the
program counter: registers `b`, `c`, `d`, `e`, `h`, `l` and the memory bus
are unchanged. -/
theorem execute_add_c_frame (cpu cpu' : CPU) (next_pc : Nat)
    (h : cpu.execute (.ADD .C) = .ok (cpu', next_pc)) :
    cpu'.registers.b = cpu.registers.b ∧ cpu'.registers.c = cpu.registers.c ∧
    cpu'.registers.d = cpu.registers.d ∧ cpu'.registers.e = cpu.registers.e ∧
    cpu'.registers.h = cpu.registers.h ∧ cpu'.registers.l = cpu.registers.l ∧
    cpu'.pc = cpu.pc ∧ cpu'.bus = cpu.bus := by
  simp only [CPU.execute, CPU.add, u8_overflowing_add, Except.ok.injEq, Prod.mk.injEq] at h
  obtain ⟨h1, h2⟩ := h
  subst h1
  simp

/-- The CPU state `cpuAdd1` leaves behind after `ADD C`. -/
def cpuAdd1After : CPU :=
  { cpuAdd1 with registers :=
    { cpuAdd1.registers with a := 0x10, f := ⟨false, false, true, false⟩ } }

/-- Witness for claim C9 at the concrete state `cpuAdd1`. -/
theorem execute_add_c_frame_witness :
    cpuAdd1After.registers.b = cpuAdd1.registers.b ∧
    cpuAdd1After.registers.c = cpuAdd1.registers.c ∧
    cpuAdd1After.registers.d = cpuAdd1.registers.d ∧
    cpuAdd1After.registers.e = cpuAdd1.registers.e ∧
    cpuAdd1After.registers.h = cpuAdd1.registers.h ∧
    cpuAdd1After.registers.l = cpuAdd1.registers.l ∧
    cpuAdd1After.pc = cpuAdd1.pc ∧ cpuAdd1After.bus = cpuAdd1.bus :=
  execute_add_c_frame cpuAdd1 cpuAdd1After 0x101 rfl

/-- Claim C10: executing `ADD` with any target other than `C` hits a
`todo!()` arm of `CPU::execute` and aborts rather than returning a next
program counter. -/
theorem execute_add_unimplemented (cpu : CPU) (target : ArithmeticTarget)
    (h : target ≠ .C) :
    cpu.execute (.ADD target) = .error .unimplemented := by
  cases target <;> simp_all [CPU.execute]

/-- Witness for claim C10 at target `B` on a concrete state. -/
theorem execute_add_unimplemented_witness :
    (cpuAt 0 (constBus 0)).execute (.ADD .B) = .error .unimplemented :=
  execute_add_unimplemented (cpuAt 0 (constBus 0)) .B (by decide)
